import Mathlib

/-!
Verification of `src/getcookie.py` (Chrome cookie extractor that merges
decrypted cookies into a Playwright `storage.json`).

The Python code is shallowly embedded. Python `str` values are modelled as
`List Char` (so that Python's slicing/`startswith`/`endswith`/`split` have
direct, provable counterparts), and Python `bytes` as `List Nat` (each entry
a byte value). Library calls that the script treats as black boxes
(PBKDF2+AES-CBC decryption, SHA-256, lossy UTF-8 decoding) are passed in as
explicit function parameters: every claim under audit is about the script's
own control flow around those calls, never about the cipher internals.
-/

/-- Python `str` modelled as a list of characters. -/
abbrev Str := List Char

/-- Python `s.lstrip('.')` - removes every leading `'.'` character. -/
def pyLstripDot (s : Str) : Str :=
  s.dropWhile (fun c => c == '.')

/-- Python `s.startswith('.')` - true when the first character is a dot. -/
def startsWithDot (s : Str) : Bool :=
  s.head? == some '.'

/-- Python `'.'.join(parts)` over the result of `split('.')`. -/
def pyJoinDot (parts : List Str) : Str :=
  List.intercalate ['.'] parts

/--
Function `get_cookies`, lines 134-150: the ordered list of host-key variants queried
for one input domain.  The literal domain always comes first; a leading-dot
copy is appended when the input does not start with a dot; and when the
input contains a dot and does not start with one, for every split index
`i` in Python's `range(1, len(parts))` the dot-prefixed rejoin of
`parts[i:]` is appended.  (`List.splitOn` agrees with Python `str.split`
with an explicit separator, including on empty strings and empty fields.)
-/
def domainsToQuery (domain : Str) : List Str :=
  let base := if startsWithDot domain then [domain] else [domain, '.' :: domain]
  if ('.' ∈ domain) ∧ ¬ startsWithDot domain then
    let parts := List.splitOn '.' domain
    base ++ (List.range' 1 (parts.length - 1)).map
      (fun i => '.' :: pyJoinDot (parts.drop i))
  else base

/--
Function `main`, lines 231-235: the domain written into the Playwright cookie dict.
`__Host-`-prefixed names get `host_key.lstrip('.')`; every other name gets
`host_key` unchanged when it already starts with a dot, else `'.' + host_key`.
-/
def normalizeDomain (name host_key : Str) : Str :=
  if List.isPrefixOf "__Host-".data name then pyLstripDot host_key
  else if startsWithDot host_key then host_key else '.' :: host_key

/--
Python list indexing `l[n]` for `n : ℤ`: non-negative indices count from the
front, negative indices from the back, and an out-of-range index raises
`IndexError` (modelled as `none`).
-/
def pyIndex (l : List Str) (n : ℤ) : Option Str :=
  if 0 ≤ n then l.get? n.toNat
  else if (l.length : ℤ) + n < 0 then none
  else l.get? ((l.length : ℤ) + n).toNat

/--
Line 244 of `main`: `["None", "Lax", "Strict"][cookie.same_site] if
cookie.same_site < 3 else "None"`.  `none` models the `IndexError` raised
(and propagated to the top-level handler) when `same_site ≤ -4`.
-/
def sameSiteString (n : ℤ) : Option Str :=
  if n < 3 then pyIndex ["None".data, "Lax".data, "Strict".data] n
  else some "None".data

/-- Python `int(x)` on a real value: truncation toward zero. -/
def pyTruncInt (q : ℚ) : ℤ :=
  if 0 ≤ q then ⌊q⌋ else -⌊-q⌋

/--
Lines 247-249 of `main`: the optional `expires` field.  Present exactly when the
row's raw `expires_utc` (microseconds since 1601) is positive, holding
`int(expires / 1e6 - 11644473600)`.  The Python float arithmetic is modelled
as exact rational arithmetic followed by `int` truncation.
-/
def expiresField (expires_utc : ℤ) : Option ℤ :=
  if 0 < expires_utc then some (pyTruncInt ((expires_utc : ℚ) / 1000000 - 11644473600))
  else none

/--
Method `Cookie._unpad`, lines 90-99, called under `try/except` so every raised
exception is modelled as `none`:
empty input raises `IndexError` on `data[-1]`; a last byte above 16 raises
`ValueError`; a declared padding length exceeding the data length reaches an
out-of-range `data[-i]` (`IndexError`); a trailing byte differing from the
declared padding raises `ValueError`.  Otherwise the result is
`data[:-padding]`, which in Python is the EMPTY slice when `padding = 0`
(because `-0 == 0`), and all-but-the-last-`padding` bytes when `padding > 0`.
-/
def pyLastByteUnpad (data : List Nat) : Option (List Nat) :=
  match data.getLast? with
  | none => none
  | some padding =>
    if 16 < padding then none
    else if data.length < padding then none
    else if (List.range' 1 padding).all (fun i => data.getD (data.length - i) 0 == padding) then
      some (if padding = 0 then [] else data.take (data.length - padding))
    else none

/--
Lines 66-69 of `Cookie.decrypted`: `try: plaintext = self._unpad(decrypted)
except: plaintext = decrypted` - any padding failure falls back to the raw
decrypted block.
-/
def unpadOrRaw (data : List Nat) : List Nat :=
  (pyLastByteUnpad data).getD data

/--
Lines 71-83 of `Cookie.decrypted`: the post-unpadding stage.  When the
plaintext holds at least 32 bytes and its first 32 bytes equal
`sha256(host_key.encode())`, the value is the lossy UTF-8 decode of the
remainder; on a hash mismatch, or when the plaintext is shorter than 32
bytes, the whole plaintext is decoded.  `sha256` and `decodeUtf8`
(Python `bytes.decode('utf-8', errors='ignore')`) are explicit parameters.
-/
def hashCheckStage (sha256 : Str → List Nat) (decodeUtf8 : List Nat → Str)
    (host_key : Str) (plaintext : List Nat) : Str :=
  if 32 ≤ plaintext.length then
    if plaintext.take 32 = sha256 host_key then decodeUtf8 (plaintext.drop 32)
    else decodeUtf8 plaintext
  else decodeUtf8 plaintext

/-- The 3-byte version marker `b'v10'`. -/
def v10marker : List Nat := [118, 49, 48]

/-- The 3-byte version marker `b'v11'`. -/
def v11marker : List Nat := [118, 49, 49]

/-- One row of Chrome's `cookies` table as the script reads it. -/
structure Cookie where
  name : Str
  value : Str
  domain : Str
  path : Str
  encrypted : List Nat
  expires : ℤ
  is_secure : ℤ
  is_httponly : ℤ
  same_site : ℤ
  host_key : Str
deriving DecidableEq, Repr

/--
Method `Cookie.decrypted`, lines 51-88 in full.  `aesDecrypt password ciphertext`
stands for the PBKDF2 key derivation plus the AES-CBC decryption of lines
61-63 (the fixed salt/IV/iteration constants live inside it).  A non-empty
plaintext `value` is returned unchanged; an empty `encrypted` gives `""`;
a `v10`/`v11` marker routes through decrypt, unpad-with-fallback and the
hash-check stage; any other marker is decoded as-is.
-/
def decryptedValue (aesDecrypt : Str → List Nat → List Nat) (sha256 : Str → List Nat)
    (decodeUtf8 : List Nat → Str) (password : Str) (c : Cookie) : Str :=
  if c.value ≠ [] then c.value
  else if c.encrypted ≠ [] then
    if c.encrypted.take 3 = v10marker ∨ c.encrypted.take 3 = v11marker then
      hashCheckStage sha256 decodeUtf8 c.host_key
        (unpadOrRaw (aesDecrypt password (c.encrypted.drop 3)))
    else decodeUtf8 c.encrypted
  else []

/--
One entry of `storage_state["cookies"]` in the shape built at lines 237-249.
`sameSite = none` records the `IndexError` path of line 244 (which would
abort the real run); `expires = none` records the omitted field of a session
cookie.
-/
structure PwCookie where
  name : Str
  value : Str
  domain : Str
  path : Str
  httpOnly : Bool
  secure : Bool
  sameSite : Option Str
  expires : Option ℤ
deriving DecidableEq, Repr

/--
Lines 227-250 of `main`: the fresh batch (`new_cookies`).  Each source row is
decrypted; rows with an empty decrypted value are skipped; the rest are
converted to Playwright shape in order.
-/
def buildNewCookies (aesDecrypt : Str → List Nat → List Nat) (sha256 : Str → List Nat)
    (decodeUtf8 : List Nat → Str) (password : Str) (rows : List Cookie) : List PwCookie :=
  rows.filterMap (fun c =>
    let v := decryptedValue aesDecrypt sha256 decodeUtf8 password c
    if v.isEmpty then none
    else some
      { name := c.name
        value := v
        domain := normalizeDomain c.name c.host_key
        path := c.path
        httpOnly := c.is_httponly ≠ 0
        secure := c.is_secure ≠ 0
        sameSite := sameSiteString c.same_site
        expires := expiresField c.expires })

/--
The per-cookie test of the list comprehension at lines 254-257:
`any(c["domain"].endswith(d.lstrip('.')) for d in domains_queried)`.
-/
def evictMatch (domains_queried : List Str) (storedDomain : Str) : Bool :=
  domains_queried.any (fun d => (pyLstripDot d).isSuffixOf storedDomain)

/--
Lines 254-257 of `main`: keep exactly the stored cookies whose domain matches
no queried variant under `evictMatch`.
-/
def evictCookies (domains_queried : List Str) (stored : List PwCookie) : List PwCookie :=
  stored.filter (fun c => ! evictMatch domains_queried c.domain)

/--
Lines 254-259 of `main`: one merge step - evict matching stored cookies, then
append the fresh batch.
-/
def mergeCookies (domains_queried : List Str) (fresh stored : List PwCookie) : List PwCookie :=
  evictCookies domains_queried stored ++ fresh

/--
Lines 228-235 of `main`: the loop variable `domain`.  It starts as the CLI
argument and is reassigned to `normalizeDomain` of each row whose decrypted
value is non-empty; lines 265-267 print its final value.
-/
def finalPrintedDomain (aesDecrypt : Str → List Nat → List Nat) (sha256 : Str → List Nat)
    (decodeUtf8 : List Nat → Str) (password : Str) (cli : Str) (rows : List Cookie) : Str :=
  rows.foldl (fun dv c =>
    if (decryptedValue aesDecrypt sha256 decodeUtf8 password c).isEmpty then dv
    else normalizeDomain c.name c.host_key) cli

/--
The rows of the batch that actually get emitted (non-empty decrypted value),
in order.
-/
def emittedRows (aesDecrypt : Str → List Nat → List Nat) (sha256 : Str → List Nat)
    (decodeUtf8 : List Nat → Str) (password : Str) (rows : List Cookie) : List Cookie :=
  rows.filter (fun c => ! (decryptedValue aesDecrypt sha256 decodeUtf8 password c).isEmpty)

/-- The `(name, domain, path)` key of a stored cookie entry. -/
def tripleOf (c : PwCookie) : Str × Str × Str :=
  (c.name, c.domain, c.path)

/--
Modelled from the spec: the eviction predicate exactly as the claim words
it - the stored cookie's domain, leading dot removed, must be a suffix of
(or equal to) some queried variant with its leading dot removed.  Kept as a
separate definition so it can be compared with `evictMatch`, which is the
code's own rule.
-/
def specEvictMatch (domains_queried : List Str) (storedDomain : Str) : Bool :=
  domains_queried.any (fun d => (pyLstripDot storedDomain).isSuffixOf (pyLstripDot d))

/--
Function `main`, lines 212-259, composed for one domain: build the queried-variant
list, convert the matching rows, evict, and append.  (The rows handed to
this step always have `host_key` drawn from the variant list, since the SQL
query of lines 159-165 filters on equality with those variants.)
-/
def runMerge (aesDecrypt : Str → List Nat → List Nat) (sha256 : Str → List Nat)
    (decodeUtf8 : List Nat → Str) (password : Str) (cli : Str) (rows : List Cookie)
    (stored : List PwCookie) : List PwCookie :=
  mergeCookies (domainsToQuery cli)
    (buildNewCookies aesDecrypt sha256 decodeUtf8 password rows) stored

/-- A decrypt stub for concrete instantiations (never reached when rows carry plaintext values). -/
def noAes : Str → List Nat → List Nat := fun _ _ => []

/-- A hash stub for concrete instantiations. -/
def noSha : Str → List Nat := fun _ => []

/-- A decode stub for concrete instantiations; sends every byte list to `""`. -/
def noDecode : List Nat → Str := fun _ => []

/--
A sample plaintext-valued row under host key `github.com` (as the SQL
filter would return for the CLI domain `github.com`).
-/
def sampleRowPlain : Cookie :=
  { name := "a".data, value := "v".data, domain := "github.com".data, path := "/".data
    encrypted := [], expires := 0, is_secure := 0, is_httponly := 0, same_site := 0
    host_key := "github.com".data }

/-- The same logical cookie stored under the dotted host key `.github.com`. -/
def sampleRowDotted : Cookie :=
  { name := "a".data, value := "v".data, domain := "github.com".data, path := "/".data
    encrypted := [], expires := 0, is_secure := 0, is_httponly := 0, same_site := 0
    host_key := ".github.com".data }

/-- A stored Playwright entry for the unqueried subdomain `api.github.com`. -/
def sampleStoredApi : PwCookie :=
  { name := "b".data, value := "w".data, domain := "api.github.com".data, path := "/".data
    httpOnly := false, secure := false, sameSite := some "None".data, expires := none }

/--
A row with no plaintext value and a one-byte `v10`-marked ciphertext, used
to instantiate the decryption-stage theorems at concrete inputs.
-/
def sampleEncRow : Cookie :=
  { name := "e".data, value := [], domain := [], path := "/".data
    encrypted := v10marker ++ [0], expires := 0, is_secure := 0, is_httponly := 0
    same_site := 0, host_key := "example.com".data }

/--
C1 (counterexample): the domain matcher does NOT map `github.com` to just
`["github.com", ".github.com"]` - the parent loop also appends `".com"`
(and likewise `console.anthropic.com` gains a fourth variant `".com"`).
-/
theorem c1_variant_list_counterexample :
    domainsToQuery "github.com".data ≠ ["github.com".data, ".github.com".data] ∧
    domainsToQuery "console.anthropic.com".data ≠
      ["console.anthropic.com".data, ".console.anthropic.com".data,
       ".anthropic.com".data] := by
  decide

/--
C1 (amended): `get_cookies` maps `console.anthropic.com` to exactly
`["console.anthropic.com", ".console.anthropic.com", ".anthropic.com",
".com"]` and `github.com` to exactly `["github.com", ".github.com",
".com"]`: the parent-domain loop runs over every split index up to the last,
so a final `".com"` variant is always appended for an undotted input that
contains a dot.
-/
theorem c1_variant_list_amended :
    domainsToQuery "console.anthropic.com".data =
      ["console.anthropic.com".data, ".console.anthropic.com".data,
       ".anthropic.com".data, ".com".data] ∧
    domainsToQuery "github.com".data =
      ["github.com".data, ".github.com".data, ".com".data] := by
  decide

/--
C3 (counterexample): a same-site value of `-1` does not map to `"None"`:
Python's negative indexing makes `["None","Lax","Strict"][-1]` evaluate to
`"Strict"`.
-/
theorem c3_samesite_counterexample :
    sameSiteString (-1) = some "Strict".data ∧ "Strict".data ≠ "None".data := by
  decide

/--
C3 (amended): the emitted sameSite string is `"None"` for 0, `"Lax"` for 1,
`"Strict"` for 2, and `"None"` for every value of 3 or more; but negative
values hit Python's negative indexing, so `-1` yields `"Strict"`, `-2`
yields `"Lax"`, `-3` yields `"None"`, and anything below `-3` raises
`IndexError` (aborting the run) instead of producing a string.
-/
theorem c3_samesite_amended :
    sameSiteString 0 = some "None".data ∧
    sameSiteString 1 = some "Lax".data ∧
    sameSiteString 2 = some "Strict".data ∧
    (∀ n : ℤ, 3 ≤ n → sameSiteString n = some "None".data) ∧
    sameSiteString (-1) = some "Strict".data ∧
    sameSiteString (-2) = some "Lax".data ∧
    sameSiteString (-3) = some "None".data ∧
    (∀ n : ℤ, n < -3 → sameSiteString n = none) := by
  refine ⟨by decide, by decide, by decide, ?_, by decide, by decide, by decide, ?_⟩
  · intro n hn
    simp only [sameSiteString, if_neg (by omega : ¬ n < 3)]
  · intro n hn
    simp only [sameSiteString, if_pos (by omega : n < 3), pyIndex,
      if_neg (by omega : ¬ 0 ≤ n)]
    rw [if_pos]
    simp only [List.length_cons, List.length_nil]
    omega

/--
C3 (witness for the amended theorem): instantiating the quantified parts at
`5` and `-4`.
-/
theorem c3_samesite_amended_witness :
    sameSiteString 5 = some "None".data ∧ sameSiteString (-4) = none :=
  ⟨c3_samesite_amended.2.2.2.1 5 (by decide), c3_samesite_amended.2.2.2.2.2.2.2 (-4) (by decide)⟩

/--
C8: the `expires` field is present exactly when the raw 1601-epoch
microsecond expiry is positive; a session cookie (raw 0) omits it; and the
concrete persistent expiry `13300000000000000` microseconds maps to
`13300000000000000 / 10^6 - 11644473600 = 1655526400`, a positive
Unix-epoch-seconds integer.  (The Python float division is modelled as exact
rational arithmetic truncated toward zero by `int`.)
-/
theorem c8_expires_field :
    (∀ e : ℤ, (expiresField e).isSome ↔ 0 < e) ∧
    expiresField 0 = none ∧
    expiresField 13300000000000000 =
      some (13300000000000000 / 1000000 - 11644473600) ∧
    expiresField 13300000000000000 = some 1655526400 ∧
    (0 : ℤ) < 1655526400 := by
  refine ⟨?_, by simp [expiresField], ?_, ?_, by norm_num⟩
  · intro e
    unfold expiresField
    split <;> simp_all
  · show expiresField 13300000000000000 = some 1655526400
    unfold expiresField pyTruncInt
    norm_num
  · unfold expiresField pyTruncInt
    norm_num

/--
C8 (witness): the presence-iff conjunct applied at the concrete raw expiry 1.
-/
theorem c8_expires_field_witness :
    (expiresField 1).isSome ↔ (0 : ℤ) < 1 :=
  c8_expires_field.1 1

/-- Python `lstrip('.')` only discards a prefix, so its result is a suffix of the input. -/
theorem pyLstripDot_suffix (s : Str) : pyLstripDot s <:+ s :=
  List.dropWhile_suffix _

/--
Whatever `normalizeDomain` emits ends with the host key stripped of leading
dots - the fact that makes each fresh cookie match its own eviction rule.
-/
theorem pyLstripDot_suffix_normalizeDomain (name host : Str) :
    pyLstripDot host <:+ normalizeDomain name host := by
  unfold normalizeDomain
  split
  · exact List.suffix_refl _
  · split
    · exact pyLstripDot_suffix host
    · exact (pyLstripDot_suffix host).trans (List.suffix_cons '.' host)

/-- Stripping every leading dot leaves a string that does not start with a dot. -/
theorem startsWithDot_pyLstripDot (s : Str) : startsWithDot (pyLstripDot s) = false := by
  induction s with
  | nil => rfl
  | cons c t ih =>
    by_cases hc : c = '.'
    · simpa [pyLstripDot, List.dropWhile, hc] using ih
    · have hb : (c == '.') = false := by simp [hc]
      simp [pyLstripDot, List.dropWhile, hb, startsWithDot, hc]

/--
C2 (counterexample): for the queried variants of `github.com`, the stored
entry for the unqueried subdomain `api.github.com` fails the claim's rule
(`api.github.com` is a suffix of no variant), yet the code's
`endswith`-based filter evicts it: the code's suffix test runs in the
OPPOSITE direction from the claim's.
-/
theorem c2_evict_counterexample :
    specEvictMatch (domainsToQuery "github.com".data) sampleStoredApi.domain = false ∧
    evictMatch (domainsToQuery "github.com".data) sampleStoredApi.domain = true ∧
    evictCookies (domainsToQuery "github.com".data) [sampleStoredApi] = [] := by
  decide

/--
C2 (amended): the merger removes a stored cookie `c` exactly when some
queried variant, with all leading dots removed, is a suffix of (or equal to)
`c`'s stored domain, which is not dot-stripped; entries matching no variant
this way are kept.  (This is the reverse suffix direction from the original
claim, and it over-matches: any stored domain merely ending in a variant's
core - e.g. `api.github.com` against variant `github.com` - is evicted too.)
-/
theorem c2_evict_amended (D : List Str) (stored : List PwCookie) (c : PwCookie) :
    c ∈ evictCookies D stored ↔
      c ∈ stored ∧ ¬ ∃ d ∈ D, pyLstripDot d <:+ c.domain := by
  simp [evictCookies, evictMatch, List.mem_filter, List.isSuffixOf_iff_suffix]

/--
C2 (witness): the amended rule instantiated on a one-entry stored list and
the `github.com` variants.
-/
theorem c2_evict_amended_witness :
    sampleStoredApi ∈ evictCookies (domainsToQuery "github.com".data) [sampleStoredApi] ↔
      sampleStoredApi ∈ [sampleStoredApi] ∧
        ¬ ∃ d ∈ domainsToQuery "github.com".data,
          pyLstripDot d <:+ sampleStoredApi.domain :=
  c2_evict_amended (domainsToQuery "github.com".data) [sampleStoredApi] sampleStoredApi

/--
C7: an emitted entry whose cookie name starts with `__Host-` gets a domain
with no leading dot (all leading dots of the host key are stripped); every
other name gets a domain that does start with a dot (one is prepended when
the host key lacks it).
-/
theorem c7_host_prefix_domain (name host : Str) :
    (List.isPrefixOf "__Host-".data name = true →
      startsWithDot (normalizeDomain name host) = false) ∧
    (List.isPrefixOf "__Host-".data name = false →
      startsWithDot (normalizeDomain name host) = true) := by
  constructor
  · intro hp
    simp only [normalizeDomain, hp, if_true]
    exact startsWithDot_pyLstripDot host
  · intro hp
    simp only [normalizeDomain, hp, Bool.false_eq_true, if_false]
    by_cases hd : startsWithDot host
    · simp [hd]
    · have hd' : ¬ List.head? host = some '.' := by simpa [startsWithDot] using hd
      simp only [startsWithDot] at hd ⊢
      rw [if_neg (by simpa using hd')]
      simp

/--
C7 (witness): a `__Host-` name over an undotted host key, and a plain name
over a dotted host key.
-/
theorem c7_host_prefix_domain_witness :
    startsWithDot (normalizeDomain "__Host-id".data "github.com".data) = false ∧
    startsWithDot (normalizeDomain "sid".data ".github.com".data) = true :=
  ⟨(c7_host_prefix_domain "__Host-id".data "github.com".data).1 (by decide),
   (c7_host_prefix_domain "sid".data ".github.com".data).2 (by decide)⟩

/--
C4: when the AES-CBC-decrypted block ends in a byte above 16, or its
trailing run of declared-padding-length bytes is not uniform, the padding
removal raises inside `try`, the bare `except` swallows it, the raw
decrypted block is used unchanged, and the decrypt routine continues into
the hash-check / best-effort-decode stage instead of raising to `main`.
-/
theorem c4_malformed_padding_fallback (data : List Nat) (p : Nat)
    (hp : data.getLast? = some p)
    (hbad : 16 < p ∨ ∃ i, 1 ≤ i ∧ i ≤ p ∧ data.getD (data.length - i) 0 ≠ p) :
    pyLastByteUnpad data = none ∧ unpadOrRaw data = data ∧
    ∀ (aesDecrypt : Str → List Nat → List Nat) (sha256 : Str → List Nat)
      (decodeUtf8 : List Nat → Str) (password : Str) (c : Cookie),
      c.value = [] → c.encrypted ≠ [] →
      (c.encrypted.take 3 = v10marker ∨ c.encrypted.take 3 = v11marker) →
      aesDecrypt password (c.encrypted.drop 3) = data →
      decryptedValue aesDecrypt sha256 decodeUtf8 password c =
        hashCheckStage sha256 decodeUtf8 c.host_key data := by
  have hnone : pyLastByteUnpad data = none := by
    unfold pyLastByteUnpad
    rw [hp]
    show (if 16 < p then none
      else if data.length < p then none
      else if ((List.range' 1 p).all fun i => data.getD (data.length - i) 0 == p) = true then
        some (if p = 0 then [] else List.take (data.length - p) data)
      else none) = none
    rcases hbad with h16 | ⟨i, h1, h2, hne⟩
    · rw [if_pos h16]
    · have hall : ((List.range' 1 p).all
          (fun j => data.getD (data.length - j) 0 == p)) = false := by
        refine List.all_eq_false.mpr ⟨i, ?_, ?_⟩
        · rw [List.mem_range'_1]
          omega
        · simpa using hne
      by_cases h16 : 16 < p
      · rw [if_pos h16]
      · by_cases hlen : data.length < p
        · rw [if_neg h16, if_pos hlen]
        · rw [if_neg h16, if_neg hlen, if_neg (by rw [hall]; simp)]
  refine ⟨hnone, ?_, ?_⟩
  · unfold unpadOrRaw
    rw [hnone]
    rfl
  · intro aesDecrypt sha256 decodeUtf8 password c hv he hm haes
    unfold decryptedValue
    rw [if_neg (by simp [hv]), if_pos he, if_pos hm, haes]
    unfold unpadOrRaw
    rw [hnone]
    rfl

/--
C4 (witness): the one-byte block `[200]` (declared padding 200 > 16) falls
back to itself and the decrypt of `sampleEncRow` still reaches the
hash-check stage on the raw block.
-/
theorem c4_malformed_padding_fallback_witness :
    pyLastByteUnpad [200] = none ∧ unpadOrRaw [200] = [200] ∧
    decryptedValue (fun _ _ => [200]) noSha noDecode [] sampleEncRow =
      hashCheckStage noSha noDecode "example.com".data [200] := by
  have h := c4_malformed_padding_fallback [200] 200 (by decide) (Or.inl (by decide))
  exact ⟨h.1, h.2.1, h.2.2 _ _ _ _ _ rfl (by decide) (Or.inl (by decide)) rfl⟩

/--
C5: for a `v10`/`v11` cookie, writing `pt` for the post-padding-removal
plaintext: with at least 32 bytes and a leading block equal to
`sha256(host_key)` the returned value is the decode of everything after
those 32 bytes; with at least 32 bytes and a differing leading block the
whole plaintext is decoded; and under 32 bytes the whole plaintext is
decoded.
-/
theorem c5_domain_hash_check (aesDecrypt : Str → List Nat → List Nat)
    (sha256 : Str → List Nat) (decodeUtf8 : List Nat → Str) (password : Str)
    (c : Cookie) (pt : List Nat) (hv : c.value = []) (he : c.encrypted ≠ [])
    (hm : c.encrypted.take 3 = v10marker ∨ c.encrypted.take 3 = v11marker)
    (hpt : pt = unpadOrRaw (aesDecrypt password (c.encrypted.drop 3))) :
    (32 ≤ pt.length → pt.take 32 = sha256 c.host_key →
      decryptedValue aesDecrypt sha256 decodeUtf8 password c = decodeUtf8 (pt.drop 32)) ∧
    (32 ≤ pt.length → pt.take 32 ≠ sha256 c.host_key →
      decryptedValue aesDecrypt sha256 decodeUtf8 password c = decodeUtf8 pt) ∧
    (pt.length < 32 →
      decryptedValue aesDecrypt sha256 decodeUtf8 password c = decodeUtf8 pt) := by
  have hd : decryptedValue aesDecrypt sha256 decodeUtf8 password c =
      hashCheckStage sha256 decodeUtf8 c.host_key pt := by
    unfold decryptedValue
    rw [if_neg (by simp [hv]), if_pos he, if_pos hm, hpt]
  refine ⟨fun h1 h2 => ?_, fun h1 h2 => ?_, fun h1 => ?_⟩
  · rw [hd]
    unfold hashCheckStage
    rw [if_pos h1, if_pos h2]
  · rw [hd]
    unfold hashCheckStage
    rw [if_pos h1, if_neg h2]
  · rw [hd]
    unfold hashCheckStage
    rw [if_neg (by omega)]

/--
C5 (witness): a 33-byte plaintext whose first 32 bytes equal the (stubbed)
host-key hash strips the prefix and decodes only the final byte.
-/
theorem c5_domain_hash_check_witness :
    decryptedValue (fun _ _ => List.replicate 32 7 ++ [65])
        (fun _ => List.replicate 32 7) noDecode [] sampleEncRow =
      noDecode ((List.replicate 32 7 ++ [65]).drop 32) := by
  have h := c5_domain_hash_check (fun _ _ => List.replicate 32 7 ++ [65])
    (fun _ => List.replicate 32 7) noDecode [] sampleEncRow
    (List.replicate 32 7 ++ [65]) rfl (by decide) (Or.inl (by decide)) (by decide)
  exact h.1 (by decide) (by decide)

/--
C9: a decrypted block whose last byte is 0 passes the manual padding check
with declared length 0, yet Python's `data[:-0]` empties it; the cookie
therefore decrypts to `""` and contributes nothing to `new_cookies`,
wherever it sits in the row list.
-/
theorem c9_zero_padding_empty (data : List Nat) (hlast : data.getLast? = some 0)
    (aesDecrypt : Str → List Nat → List Nat) (sha256 : Str → List Nat)
    (decodeUtf8 : List Nat → Str) (password : Str) (hdec : decodeUtf8 [] = [])
    (c : Cookie) (hv : c.value = []) (he : c.encrypted ≠ [])
    (hm : c.encrypted.take 3 = v10marker ∨ c.encrypted.take 3 = v11marker)
    (haes : aesDecrypt password (c.encrypted.drop 3) = data) :
    pyLastByteUnpad data = some [] ∧
    decryptedValue aesDecrypt sha256 decodeUtf8 password c = [] ∧
    buildNewCookies aesDecrypt sha256 decodeUtf8 password [c] = [] ∧
    ∀ xs ys, buildNewCookies aesDecrypt sha256 decodeUtf8 password (xs ++ c :: ys) =
      buildNewCookies aesDecrypt sha256 decodeUtf8 password xs ++
        buildNewCookies aesDecrypt sha256 decodeUtf8 password ys := by
  have hun : pyLastByteUnpad data = some [] := by
    unfold pyLastByteUnpad
    rw [hlast]
    simp
  have hval : decryptedValue aesDecrypt sha256 decodeUtf8 password c = [] := by
    unfold decryptedValue
    rw [if_neg (by simp [hv]), if_pos he, if_pos hm, haes]
    unfold unpadOrRaw
    rw [hun]
    simp [hashCheckStage, hdec]
  have hfc : (fun r => (fun v => if v.isEmpty then none else some
      { name := r.name, value := v, domain := normalizeDomain r.name r.host_key,
        path := r.path, httpOnly := r.is_httponly ≠ 0, secure := r.is_secure ≠ 0,
        sameSite := sameSiteString r.same_site,
        expires := expiresField r.expires : PwCookie })
      (decryptedValue aesDecrypt sha256 decodeUtf8 password r)) c = none := by
    simp [hval]
  refine ⟨hun, hval, ?_, ?_⟩
  · simp [buildNewCookies, hval]
  · intro xs ys
    unfold buildNewCookies
    rw [List.filterMap_append, List.filterMap_cons_none (by simpa using hfc)]

/--
C9 (witness): the block `[0]` for `sampleEncRow`, placed between a
plaintext row and nothing.
-/
theorem c9_zero_padding_empty_witness :
    pyLastByteUnpad [0] = some [] ∧
    decryptedValue (fun _ _ => [0]) noSha noDecode [] sampleEncRow = [] ∧
    buildNewCookies (fun _ _ => [0]) noSha noDecode [] [sampleEncRow] = [] ∧
    buildNewCookies (fun _ _ => [0]) noSha noDecode []
        ([sampleRowPlain] ++ sampleEncRow :: []) =
      buildNewCookies (fun _ _ => [0]) noSha noDecode [] [sampleRowPlain] ++
        buildNewCookies (fun _ _ => [0]) noSha noDecode [] [] := by
  have h := c9_zero_padding_empty [0] (by decide) (fun _ _ => [0]) noSha noDecode []
    rfl sampleEncRow rfl (by decide) (Or.inl (by decide)) rfl
  exact ⟨h.1, h.2.1, h.2.2.1, h.2.2.2 [sampleRowPlain] []⟩

/-- Eviction distributes over list append (it is a `filter`). -/
theorem evictCookies_append (D : List Str) (a b : List PwCookie) :
    evictCookies D (a ++ b) = evictCookies D a ++ evictCookies D b := by
  unfold evictCookies
  simp [List.filter_append]

/-- Eviction is idempotent (filtering twice with the same test). -/
theorem evictCookies_idem (D : List Str) (s : List PwCookie) :
    evictCookies D (evictCookies D s) = evictCookies D s := by
  unfold evictCookies
  rw [List.filter_filter]
  simp only [Bool.and_self]

/--
Every cookie of the fresh batch matches the eviction test, provided its row
was stored under one of the queried host-key variants (as the SQL equality
filter guarantees).
-/
theorem evictMatch_of_buildNewCookies (aesDecrypt : Str → List Nat → List Nat)
    (sha256 : Str → List Nat) (decodeUtf8 : List Nat → Str) (password : Str)
    (D : List Str) (rows : List Cookie) (h : ∀ r ∈ rows, r.host_key ∈ D) :
    ∀ c ∈ buildNewCookies aesDecrypt sha256 decodeUtf8 password rows,
      evictMatch D c.domain = true := by
  intro c hc
  simp only [buildNewCookies, List.mem_filterMap] at hc
  obtain ⟨r, hr, hf⟩ := hc
  have hd : c.domain = normalizeDomain r.name r.host_key := by
    by_cases hemp : (decryptedValue aesDecrypt sha256 decodeUtf8 password r).isEmpty
    · simp [hemp] at hf
    · simp only [hemp, Bool.false_eq_true, if_false] at hf
      cases hf
      rfl
  unfold evictMatch
  refine List.any_eq_true.mpr ⟨r.host_key, h r hr, ?_⟩
  exact List.isSuffixOf_iff_suffix.mpr
    (hd ▸ pyLstripDot_suffix_normalizeDomain r.name r.host_key)

/-- Applying the eviction filter to the fresh batch itself erases all of it. -/
theorem evictCookies_fresh_nil (aesDecrypt : Str → List Nat → List Nat)
    (sha256 : Str → List Nat) (decodeUtf8 : List Nat → Str) (password : Str)
    (D : List Str) (rows : List Cookie) (h : ∀ r ∈ rows, r.host_key ∈ D) :
    evictCookies D (buildNewCookies aesDecrypt sha256 decodeUtf8 password rows) = [] := by
  rw [evictCookies, List.filter_eq_nil_iff]
  intro c hc
  simp [evictMatch_of_buildNewCookies aesDecrypt sha256 decodeUtf8 password D rows h c hc]

/--
C6 (counterexample): running the merge twice for `github.com` from an empty
storage state, with two unchanged source rows that hold the same cookie
name and path under the host keys `github.com` and `.github.com`, leaves a
final list with a duplicate `(name, domain, path)` combination - both rows
normalize to the domain `.github.com`, so the duplicate already sits inside
a single fresh batch and survives every further run.
-/
theorem c6_duplicate_triple_counterexample :
    ¬ ((runMerge noAes noSha noDecode [] "github.com".data
          [sampleRowPlain, sampleRowDotted]
          (runMerge noAes noSha noDecode [] "github.com".data
            [sampleRowPlain, sampleRowDotted] [])).map tripleOf).Nodup := by
  decide

/--
C6 (amended): for rows whose host keys come from the queried variant list,
running the merge twice yields exactly the same stored list as running it
once - the second run's eviction removes every cookie the first run added
before re-appending the fresh batch.  Hence duplicates never accumulate
across runs; a duplicate `(name, domain, path)` can only occur when one
fresh batch already contains it (two rows under dotted/undotted host keys
of the same domain).
-/
theorem c6_merge_idempotent (aesDecrypt : Str → List Nat → List Nat)
    (sha256 : Str → List Nat) (decodeUtf8 : List Nat → Str) (password : Str)
    (cli : Str) (rows : List Cookie) (stored : List PwCookie)
    (h : ∀ r ∈ rows, r.host_key ∈ domainsToQuery cli) :
    runMerge aesDecrypt sha256 decodeUtf8 password cli rows
        (runMerge aesDecrypt sha256 decodeUtf8 password cli rows stored) =
      runMerge aesDecrypt sha256 decodeUtf8 password cli rows stored := by
  unfold runMerge mergeCookies
  rw [evictCookies_append, evictCookies_idem,
    evictCookies_fresh_nil aesDecrypt sha256 decodeUtf8 password
      (domainsToQuery cli) rows h, List.append_nil]

/--
C6 (witness): the idempotence applied to one `github.com` row starting from
an empty storage state.
-/
theorem c6_merge_idempotent_witness :
    runMerge noAes noSha noDecode [] "github.com".data [sampleRowPlain]
        (runMerge noAes noSha noDecode [] "github.com".data [sampleRowPlain] []) =
      runMerge noAes noSha noDecode [] "github.com".data [sampleRowPlain] [] :=
  c6_merge_idempotent noAes noSha noDecode [] "github.com".data [sampleRowPlain] []
    (by decide)

/--
The loop variable after the whole loop equals the normalized domain of the
last row whose decrypted value was non-empty, or the CLI argument when no
row was emitted.
-/
theorem finalPrintedDomain_eq_getLastD (aesDecrypt : Str → List Nat → List Nat)
    (sha256 : Str → List Nat) (decodeUtf8 : List Nat → Str) (password : Str)
    (cli : Str) (rows : List Cookie) :
    finalPrintedDomain aesDecrypt sha256 decodeUtf8 password cli rows =
      ((emittedRows aesDecrypt sha256 decodeUtf8 password rows).map
        (fun c => normalizeDomain c.name c.host_key)).getLastD cli := by
  induction rows generalizing cli with
  | nil => rfl
  | cons r rest ih =>
    cases hemp : (decryptedValue aesDecrypt sha256 decodeUtf8 password r).isEmpty with
    | true =>
      have hemp' : decryptedValue aesDecrypt sha256 decodeUtf8 password r = [] :=
        List.isEmpty_eq_true.mp hemp
      have hl : finalPrintedDomain aesDecrypt sha256 decodeUtf8 password cli (r :: rest) =
          finalPrintedDomain aesDecrypt sha256 decodeUtf8 password cli rest := by
        simp [finalPrintedDomain, hemp']
      have hr : emittedRows aesDecrypt sha256 decodeUtf8 password (r :: rest) =
          emittedRows aesDecrypt sha256 decodeUtf8 password rest := by
        simp [emittedRows, List.filter_cons, hemp]
      rw [hl, hr, ih]
    | false =>
      have hemp' : decryptedValue aesDecrypt sha256 decodeUtf8 password r ≠ [] :=
        List.isEmpty_eq_false.mp hemp
      have hl : finalPrintedDomain aesDecrypt sha256 decodeUtf8 password cli (r :: rest) =
          finalPrintedDomain aesDecrypt sha256 decodeUtf8 password
            (normalizeDomain r.name r.host_key) rest := by
        simp [finalPrintedDomain, hemp']
      have hr : emittedRows aesDecrypt sha256 decodeUtf8 password (r :: rest) =
          r :: emittedRows aesDecrypt sha256 decodeUtf8 password rest := by
        simp [emittedRows, List.filter_cons, hemp]
      rw [hl, hr, ih, List.map_cons, List.getLastD_cons]

/--
C10: inside `main`'s loop the variable holding the CLI domain is reassigned
to each emitted cookie's normalized domain, so when at least one row
decrypts to a non-empty value, the `domain` used by the success messages of
lines 265-267 is the normalized domain of the LAST emitted cookie (which
need not equal the CLI argument - see the witness).
-/
theorem c10_printed_domain_is_last_emitted (aesDecrypt : Str → List Nat → List Nat)
    (sha256 : Str → List Nat) (decodeUtf8 : List Nat → Str) (password : Str)
    (cli : Str) (rows : List Cookie)
    (h : emittedRows aesDecrypt sha256 decodeUtf8 password rows ≠ []) :
    finalPrintedDomain aesDecrypt sha256 decodeUtf8 password cli rows =
      normalizeDomain
        ((emittedRows aesDecrypt sha256 decodeUtf8 password rows).getLast h).name
        ((emittedRows aesDecrypt sha256 decodeUtf8 password rows).getLast h).host_key := by
  rw [finalPrintedDomain_eq_getLastD, List.getLastD_eq_getLast?,
    List.getLast?_map, List.getLast?_eq_getLast _ h]
  rfl

/--
C10 (witness): with the CLI argument `github.com` and one emitted cookie
stored under host key `github.com`, the printed domain is `.github.com`,
which differs from the CLI argument.
-/
theorem c10_printed_domain_witness :
    finalPrintedDomain noAes noSha noDecode [] "github.com".data [sampleRowPlain] =
      ".github.com".data ∧ ".github.com".data ≠ "github.com".data := by
  constructor
  · have h := c10_printed_domain_is_last_emitted noAes noSha noDecode []
      "github.com".data [sampleRowPlain] (by decide)
    rw [h]
    decide
  · decide
